import Mathlib

/-!
Verification of the reconciliation engine of the proceedings-migration tool
(`src/services/migrator.py`). The Python functions are shallowly embedded as
executable Lean functions over `List Char` / `String`; machine strings are
modelled as Lean strings, Python `int` as `Int`/`Nat`.

The `Article` domain class lives outside the provided sources, so its shape
(`from_dict`, attribute set) is modelled from the specification where noted.
-/

set_option autoImplicit false

namespace Migrator

/-- Python whitespace characters relevant to `str.strip()` (ASCII subset:
space, tab, newline, carriage return, vertical tab, form feed). -/
def isPyWs (c : Char) : Bool :=
  (c == ' ') || (c == '\t') || (c == '\n') || (c == '\r') ||
  (c == '\x0b') || (c == '\x0c')

/-- Python `str.strip()`: remove leading and trailing whitespace. -/
def pyStrip (l : List Char) : List Char :=
  ((l.dropWhile isPyWs).reverse.dropWhile isPyWs).reverse

/-- Python `str.rstrip("/")`: remove all trailing slash characters. -/
def rstripSlash (l : List Char) : List Char :=
  (l.reverse.dropWhile (fun c => c == '/')).reverse

/-- Removal of a leading DOI-resolver URL, modelling
`re.sub(r"^https?://(dx\.)?doi\.org/", "", s)`.  The four concrete prefixes
the regex can match are pairwise non-nested, so at most one test fires and
the order of the tests is irrelevant. -/
def stripDoiUrl (l : List Char) : List Char :=
  if ("https://dx.doi.org/".data).isPrefixOf l then l.drop 19
  else if ("https://doi.org/".data).isPrefixOf l then l.drop 16
  else if ("http://dx.doi.org/".data).isPrefixOf l then l.drop 18
  else if ("http://doi.org/".data).isPrefixOf l then l.drop 15
  else l

/-- Whether the string still starts with a resolver-URL form the regex of
`_normalize_doi` would remove. -/
def hasDoiUrlPref (l : List Char) : Bool :=
  ("https://dx.doi.org/".data).isPrefixOf l || ("https://doi.org/".data).isPrefixOf l ||
  ("http://dx.doi.org/".data).isPrefixOf l || ("http://doi.org/".data).isPrefixOf l

/-- `Migrator._normalize_doi`: empty input maps to `""`; otherwise the input
is whitespace-stripped and a single leading resolver-URL prefix is removed. -/
def normalize_doi (s : String) : String :=
  if s = "" then "" else ⟨stripDoiUrl (pyStrip s.data)⟩

/-- Digits of a decimal numeral folded to its value, modelling Python
`int(first_page)` on a string of ASCII digits. -/
def digitsToNat (l : List Char) : Nat :=
  l.foldl (fun acc c => 10 * acc + (c.toNat - 48)) 0

/-- Python `str(i)` for an `int`. -/
def intStr (i : Int) : String :=
  if i < 0 then "-" ++ Nat.repr i.natAbs else Nat.repr i.toNat

/-- `Migrator.update_pages`: if `first_page` is a nonempty all-digit string
(Python `first_page and first_page.isdigit()`, ASCII model), return
`str(int(first_page))` when `num_pages == 1` and the formatted range
otherwise; any other `first_page` is passed through unchanged. -/
def update_pages (first_page : String) (num_pages : Int) : String :=
  if (first_page != "") && first_page.data.all Char.isDigit then
    let n : Nat := digitsToNat first_page.data
    if num_pages = 1 then Nat.repr n
    else Nat.repr n ++ "-" ++ intStr ((n : Int) + num_pages - 1)
  else first_page

/-- Split a character list into its leading run of ASCII digits and the
rest (the behaviour of a greedy `\d+`, which cannot usefully backtrack). -/
def splitDigits : List Char → List Char × List Char
  | [] => ([], [])
  | c :: cs =>
    if c.isDigit then
      let p := splitDigits cs
      (c :: p.1, p.2)
    else ([], c :: cs)

/-- Validity of a split point `k` for the `[^/]+\.\d+\.` tail of the pattern
`^(10\.\d+/[^/]+\.\d+)\.`: the family token `rest.take k` contains no slash,
is followed by a dot, then a nonempty maximal digit run, then another dot. -/
def validK (rest : List Char) (k : Nat) : Bool :=
  (rest.take k).all (fun c => !(c == '/')) &&
  (match rest.drop k with
   | '.' :: after =>
     let p := splitDigits after
     !p.1.isEmpty &&
       (match p.2 with
        | '.' :: _ => true
        | _ => false)
   | _ => false)

/-- Greedy backtracking of `[^/]+`: the regex engine tries the longest
family token first, so we search split points downward from the end. -/
def famSearchAux (rest : List Char) : Nat → Option Nat
  | 0 => none
  | k + 1 => if validK rest (k + 1) then some (k + 1) else famSearchAux rest k

/-- `re.match(r"^(10\.\d+/[^/]+\.\d+)\.", s)` with the recorded value
`match.group(1) + "."`, i.e. the full matched text. -/
def matchPref (l : List Char) : Option (List Char) :=
  match l with
  | '1' :: '0' :: '.' :: rest0 =>
    if (splitDigits rest0).1.isEmpty then none
    else
      match (splitDigits rest0).2 with
      | '/' :: rest2 =>
        match famSearchAux rest2 rest2.length with
        | some k =>
          some ('1' :: '0' :: '.' :: (splitDigits rest0).1 ++ '/' :: rest2.take k
            ++ '.' :: (splitDigits (rest2.drop (k + 1))).1 ++ ['.'])
        | none => none
      | _ => none
  | _ => none

/-- First occurrences of the keys of a list, in first-seen order: the key
iteration order of a Python `collections.Counter` built from the list. -/
def firstKeys : List String → List String
  | [] => []
  | s :: rest => s :: (firstKeys rest).filter (fun t => !(t == s))

/-- First element attaining the maximal value of `f`, as `heapq.nlargest`
(used by `Counter.most_common`) is stable: a later element replaces the
current best only when strictly greater. -/
def argmaxCount (f : String → Nat) : List String → Option String
  | [] => none
  | k :: ks => some (ks.foldl (fun b q => if f b < f q then q else b) k)

/-- `Counter(pats).most_common(1)[0][0]`: the first-seen key of maximal
multiplicity. -/
def mostCommonFirst (pats : List String) : Option String :=
  argmaxCount (fun p => pats.count p) (firstKeys pats)

/-- The prefix patterns collected by `Migrator._infer_doi_prefix`: drop falsy
identifiers, normalize, drop falsy results, and keep each regex match. -/
def doi_pref_patterns (dois : List String) : List String :=
  (((dois.filter (fun d => d != "")).map normalize_doi).filter (fun d => d != "")).filterMap
    (fun d => (matchPref d.data).map (fun r => (⟨r⟩ : String)))

/-- `Migrator._infer_doi_prefix`. -/
def infer_doi_pref (dois : List String) : Option String :=
  if dois.isEmpty then none
  else if (((dois.filter (fun d => d != "")).map normalize_doi).filter
      (fun d => d != "")).isEmpty then none
  else if (doi_pref_patterns dois).isEmpty then none
  else mostCommonFirst (doi_pref_patterns dois)

/-- A site-scraped record (a dict with at least `idJEMS` and `firstPage`,
and optional `doi` and `sectionAbbrev`; `none` models a missing or `None`
entry, `some ""` an empty string). -/
structure SiteRecord where
  idJEMS : String
  firstPage : String
  doi : Option String := none
  sectionAbbrev : Option String := none
  deriving DecidableEq

/-- A PDF-extracted article as far as the joiner reads it: join key, optional
extracted identifier, page count, and the free-form extracted fields carried
opaquely (`extra` stands for all attributes outside the joiner's skip list). -/
structure PdfArticle where
  id_jems : String
  doi : Option String := none
  num_pages : Int
  extra : List (String × String) := []
  deriving DecidableEq

/-- Modelled from the spec: the `Article` domain class is not among the
provided sources.  Per the data model (spec section 3) and external
interfaces (section 6) a reconciled article carries the join key, optional
identifier, first page, page count, section code, derived pages string and
opaque free-form fields. `none` models an absent/`None` attribute. -/
structure Article where
  id_jems : String
  doi : Option String
  first_page : Option String
  num_pages : Option Int
  section_abbrev : Option String
  pages : Option String
  extra : List (String × String)
  deriving DecidableEq

/-- Python truthiness of an optional string: `None` and `""` are falsy. -/
def optTruthy : Option String → Bool
  | some s => s != ""
  | none => false

/-- The string held by an optional value (call sites guard truthiness). -/
def strOfOpt (o : Option String) : String := o.getD ""

/-- Modelled from the spec: `Article.from_dict(website_article)` (the class
is outside the provided sources).  Spec section 6 names the site-record keys
`idJEMS`, `firstPage`, `doi`, `sectionAbbrev`; they populate the article's
join key, first page, identifier and section code, all other fields absent. -/
def fromSite (w : SiteRecord) : Article :=
  { id_jems := w.idJEMS
    doi := w.doi
    first_page := some w.firstPage
    num_pages := none
    section_abbrev := w.sectionAbbrev
    pages := none
    extra := [] }

/-- The dict comprehension `{article.id_jems: article for article in pdfs}`
followed by lookup: on duplicate keys the last record wins. -/
def pdfLookup (pdfs : List PdfArticle) (k : String) : Option PdfArticle :=
  (pdfs.filter (fun p => p.id_jems == k)).getLast?

/-- `self.doi_prefix or self.inferred_doi_prefix`. -/
def pfxChoice (cfg inferred : Option String) : Option String :=
  if optTruthy cfg then cfg else inferred

/-- The prefix cleaning of `Migrator.correct_doi`: normalize, fall back to a
bare regex substitution when normalization yields the empty string, then
strip trailing slashes. -/
def cleanPref (pr : String) : String :=
  ⟨rstripSlash (if normalize_doi pr = "" then (⟨stripDoiUrl pr.data⟩ : String)
      else normalize_doi pr).data⟩

/-- The synthesis tail of `Migrator.correct_doi` (reached when the record's
identifier is falsy or blank).  The boolean records whether the missing-
prefix warning was printed. -/
def correctDoiSynth (cfg inferred : Option String) (year : String) (a : Article) :
    Article × Bool :=
  if optTruthy (pfxChoice cfg inferred) then
    match a.first_page with
    | some fp =>
      if fp != "" then
        ({ a with
            doi := some (cleanPref (strOfOpt (pfxChoice cfg inferred))
                      ++ year ++ "." ++ fp) }, false)
      else (a, false)
    | none => (a, false)
  else (a, true)

/-- `Migrator.correct_doi`: an existing truthy, non-blank identifier is
re-normalized in place; otherwise an identifier is synthesized from the
configured-or-inferred prefix, the year and the first page when available. -/
def correct_doi (cfg inferred : Option String) (year : String) (a : Article) :
    Article × Bool :=
  match a.doi with
  | some d =>
    if d ≠ "" ∧ pyStrip d.data ≠ [] then
      ({ a with doi := some (normalize_doi d) }, false)
    else correctDoiSynth cfg inferred year a
  | none => correctDoiSynth cfg inferred year a

/-- The per-match body of `Migrator.merge_article_info`: build the base
article from the site dict, copy every PDF attribute outside the skip list
`[id_jems, section_abbrev, first_page, num_pages, doi]`, restore the
normalized website identifier when truthy, recompute `pages`, and run
`correct_doi`. -/
def mergeOne (cfg inferred : Option String) (year : String)
    (w : SiteRecord) (p : PdfArticle) : Article :=
  let base := fromSite w
  let a1 := { base with extra := p.extra }
  let a2 :=
    if optTruthy base.doi then { a1 with doi := some (normalize_doi (strOfOpt base.doi)) }
    else a1
  let a3 := { a2 with pages := some (update_pages w.firstPage p.num_pages) }
  (correct_doi cfg inferred year a3).1

/-- The first pass of `Migrator.merge_article_info`: collect, in site order,
each truthy website identifier followed by the truthy identifier of the
matching PDF record, if any. -/
def extractedDois (site : List SiteRecord) (pdfs : List PdfArticle) : List String :=
  (site.map (fun w =>
    (match w.doi with
     | some d => if d != "" then [d] else []
     | none => []) ++
    (match pdfLookup pdfs w.idJEMS with
     | some p =>
       match p.doi with
       | some d => if d != "" then [d] else []
       | none => []
     | none => []))).flatten

/-- `self.inferred_doi_prefix` after the first pass: inferred only when no
configured prefix is truthy and some identifier was collected. -/
def mergeInferred (cfg : Option String) (site : List SiteRecord)
    (pdfs : List PdfArticle) : Option String :=
  if !optTruthy cfg && !(extractedDois site pdfs).isEmpty then
    infer_doi_pref (extractedDois site pdfs)
  else none

/-- The second pass of `Migrator.merge_article_info` with a fixed inferred
prefix: one merged article per site record with a PDF match, in site order. -/
def mergeLoop (cfg inferred : Option String) (year : String)
    (site : List SiteRecord) (pdfs : List PdfArticle) : List Article :=
  site.filterMap (fun w => (pdfLookup pdfs w.idJEMS).map (mergeOne cfg inferred year w))

/-- `Migrator.merge_article_info`. -/
def merge_article_info (cfg : Option String) (year : String)
    (site : List SiteRecord) (pdfs : List PdfArticle) : List Article :=
  mergeLoop cfg (mergeInferred cfg site pdfs) year site pdfs

/-- Modelled from the spec for the absent-attribute case: the grouping key of
`Migrator.write_csv_by_workshop` is `article.section_abbrev` when the
attribute is there, else `article.to_dict().get("sectionAbbrev", "UNKNOWN")`;
per spec section 4.6 an absent section code falls back to `"UNKNOWN"`. -/
def sectionKey (a : Article) : String :=
  match a.section_abbrev with
  | some s => s
  | none => "UNKNOWN"

/-- One step of the grouping dict of `write_csv_by_workshop`: append to the
group of the key if present (keys keep first-insertion order), else add a
new singleton group at the end. -/
def addToGroups : List (String × List Article) → String → Article →
    List (String × List Article)
  | [], k, a => [(k, [a])]
  | g :: gs, k, a =>
    if g.1 = k then (g.1, g.2 ++ [a]) :: gs else g :: addToGroups gs k a

/-- The grouping loop of `Migrator.write_csv_by_workshop` (the partitioner:
serialization of each group is an external concern). -/
def partition_by_section (l : List Article) : List (String × List Article) :=
  l.foldl (fun gs a => addToGroups gs (sectionKey a) a) []

/-- Lookup of a section's group (empty when the section never occurs). -/
def groupOf (gs : List (String × List Article)) (k : String) : List Article :=
  match gs.find? (fun g => g.1 == k) with
  | some g => g.2
  | none => []

/-- The guard of `correct_doi`: the record's identifier is truthy and does
not strip to the empty string (`article.doi and article.doi.strip()`). -/
def doiNonBlank (a : Article) : Bool :=
  match a.doi with
  | some d => (d != "") && !(pyStrip d.data).isEmpty
  | none => false

/-- A configured or inferred prefix is available (truthy). -/
def prefAvail (cfg inferred : Option String) : Bool :=
  optTruthy (pfxChoice cfg inferred)

/-- The record's first page is truthy. -/
def fpTruthy (a : Article) : Bool := optTruthy a.first_page

/-- The identifier carries no URL scheme: bare form as required by the
reconciled-DOI invariant. -/
def schemeFree (s : String) : Bool :=
  !(("http://".data.isPrefixOf s.data) || ("https://".data.isPrefixOf s.data))

end Migrator

open Migrator

-- Sanity checks for the regex model and inference.
example : matchPref "10.5753/a.b.2019.1".data = some "10.5753/a.b.2019.".data := by decide
example : matchPref "10.1/w.2020.5".data = some "10.1/w.2020.".data := by decide
example : matchPref "10.5753/cbie.wcbie.2019.12".data
    = some "10.5753/cbie.wcbie.2019.".data := by decide
example : matchPref "10.5753/noperiod".data = none := by decide
example : matchPref "https://doi.org/10.1/a.2020.3".data = none := by decide
example : infer_doi_pref ["10.5753/a.b.2019.1", "10.5753/a.b.2019.2", "10.5753/c.d.2019.9"]
    = some "10.5753/a.b.2019." := by decide
example : infer_doi_pref [] = none := by decide
example : infer_doi_pref ["junk", ""] = none := by decide
example : infer_doi_pref ["https://doi.org/10.1/w.2020.5"] = some "10.1/w.2020." := by decide

-- Sanity checks for the end-to-end scenario of spec section 8.
example :
    (merge_article_info none "2020"
        [{ idJEMS := "A1", firstPage := "100", sectionAbbrev := some "W1" },
         { idJEMS := "A2", firstPage := "1", doi := some "10.1/w.2020.5" }]
        [{ id_jems := "A1", num_pages := 3 }]).map (fun a => a.pages)
      = [some "100-102"] := by decide
example :
    (merge_article_info none "2020"
        [{ idJEMS := "A1", firstPage := "100", sectionAbbrev := some "W1" },
         { idJEMS := "A2", firstPage := "1", doi := some "10.1/w.2020.5" }]
        [{ id_jems := "A1", num_pages := 3 }]).map (fun a => a.doi)
      = [some "10.1/w.2020.2020.100"] := by decide

-- Sanity checks for the page-range resolver.
example : update_pages "10" 1 = "10" := by decide
example : update_pages "10" 3 = "10-12" := by decide
example : update_pages "iii" 2 = "iii" := by decide
example : update_pages "" 3 = "" := by decide
example : update_pages "007" 1 = "7" := by decide
example : update_pages "10" 0 = "10-9" := by decide
example : update_pages "10" (-20) = "10--11" := by decide

-- Sanity checks for the normalizer.
example : normalize_doi "https://dx.doi.org/10.5753/x.y.1" = "10.5753/x.y.1" := by decide
example : normalize_doi "  10.5753/a  " = "10.5753/a" := by decide
example : normalize_doi "" = "" := by decide
example : normalize_doi "https://doi.org/https://doi.org/10.5753/x.y.1"
    = "https://doi.org/10.5753/x.y.1" := by decide

/-! ## Claim C3: normalizer idempotence -/

theorem stripDoiUrl_eq_self {l : List Char} (h : hasDoiUrlPref l = false) :
    stripDoiUrl l = l := by
  unfold hasDoiUrlPref at h
  simp only [Bool.or_eq_false_iff] at h
  unfold stripDoiUrl
  simp [h.1.1.1, h.1.1.2, h.1.2, h.2]

/-- C3 counterexample: normalization is not idempotent on every string.  The
regex of `_normalize_doi` is anchored, so only one stacked resolver prefix is
removed per call; a doubly prefixed identifier changes again on the second
pass. -/
theorem normalize_doi_not_idempotent_cex :
    normalize_doi (normalize_doi "https://doi.org/https://doi.org/10.5753/x.y.1")
      ≠ normalize_doi "https://doi.org/https://doi.org/10.5753/x.y.1" := by decide

/-- C3 (amended): `normalize` is idempotent on every input whose
normalization is already whitespace-stripped and carries no leading resolver
prefix (equivalently, at most one stacked resolver layer with no whitespace
exposed behind it); the concrete normalization example holds and the empty
string maps to itself. -/
theorem normalize_doi_idempotent_amended :
    (∀ x : String,
        pyStrip (normalize_doi x).data = (normalize_doi x).data →
        hasDoiUrlPref (normalize_doi x).data = false →
        normalize_doi (normalize_doi x) = normalize_doi x)
    ∧ normalize_doi "https://dx.doi.org/10.5753/x.y.1" = "10.5753/x.y.1"
    ∧ normalize_doi "" = "" := by
  refine ⟨?_, by decide, by decide⟩
  intro x htrim hpre
  by_cases h : normalize_doi x = ""
  · rw [h]; rfl
  · set y := normalize_doi x with hy
    show normalize_doi y = y
    unfold normalize_doi
    rw [if_neg h, htrim, stripDoiUrl_eq_self hpre]

/-- C3 witness: the amended idempotence applied at a concrete identifier. -/
theorem normalize_doi_idempotent_amended_witness :
    pyStrip (normalize_doi "10.5753/a.b.1").data = (normalize_doi "10.5753/a.b.1").data
    ∧ hasDoiUrlPref (normalize_doi "10.5753/a.b.1").data = false
    ∧ normalize_doi (normalize_doi "10.5753/a.b.1") = normalize_doi "10.5753/a.b.1" :=
  ⟨by decide, by decide,
   normalize_doi_idempotent_amended.1 "10.5753/a.b.1" (by decide) (by decide)⟩

/-! ## Claim C5: page-range resolver -/

/-- C5 counterexample: for an all-digit `first_page` with `page_count == 1`
the code returns `str(int(first_page))`, not `first_page` as-is — leading
zeros are dropped. -/
theorem update_pages_as_is_cex :
    update_pages "007" 1 = "7" ∧ update_pages "007" 1 ≠ "007" := by decide

/-- C5 (amended): a `first_page` that is not a nonempty all-digit string is
passed through unchanged; an all-digit one is rendered as the canonical
decimal of its value (`str(int(first_page))`, dropping leading zeros) when
`page_count == 1`, and as `str(int(first_page)) ++ "-" ++
str(int(first_page) + page_count - 1)` otherwise; the spec's examples hold
and `page_count <= 0` raises no error (total function, e.g. `"10", 0` gives
`"10-9"`). -/
theorem update_pages_amended : ∀ (fp : String) (pc : Int),
    (((fp != "") && fp.data.all Char.isDigit) = false → update_pages fp pc = fp)
    ∧ (((fp != "") && fp.data.all Char.isDigit) = true → pc = 1 →
        update_pages fp pc = Nat.repr (digitsToNat fp.data))
    ∧ (((fp != "") && fp.data.all Char.isDigit) = true → pc ≠ 1 →
        update_pages fp pc
          = Nat.repr (digitsToNat fp.data) ++ "-"
              ++ intStr ((digitsToNat fp.data : Int) + pc - 1))
    ∧ update_pages "10" 1 = "10" ∧ update_pages "10" 3 = "10-12"
    ∧ update_pages "iii" 2 = "iii" ∧ update_pages "10" 0 = "10-9" := by
  intro fp pc
  refine ⟨?_, ?_, ?_, by decide, by decide, by decide, by decide⟩
  · intro h; simp [update_pages, h]
  · intro h h1; simp [update_pages, h, h1]
  · intro h h1; simp [update_pages, h, h1]

/-- C5 witness: the amended contract applied at the spec's own examples. -/
theorem update_pages_amended_witness :
    update_pages "iii" 2 = "iii"
    ∧ update_pages "10" 3
        = Nat.repr (digitsToNat "10".data) ++ "-"
            ++ intStr ((digitsToNat "10".data : Int) + 3 - 1) :=
  ⟨(update_pages_amended "iii" 2).1 (by decide),
   (update_pages_amended "10" 3).2.2.1 (by decide) (by decide)⟩

/-! ## Claim C1: end-to-end reconciliation scenario -/

/-- C1 counterexample: in the spec's end-to-end scenario (run year `"2020"`,
no configured prefix, inferable prefix `"10.1/w.2020."`) the reconciled
identifier is not `"10.1/w.2020.100"`: `correct_doi` appends the configured
year after the inferred prefix, which already ends in `".2020."`. -/
theorem end_to_end_scenario_cex :
    (merge_article_info none "2020"
        [{ idJEMS := "A1", firstPage := "100", sectionAbbrev := some "W1" },
         { idJEMS := "A2", firstPage := "1", doi := some "10.1/w.2020.5" }]
        [{ id_jems := "A1", num_pages := 3 }]).map (fun a => a.doi)
      ≠ [some "10.1/w.2020.100"] := by decide

/-- C1 (amended): same scenario, run year `"2020"`: the single reconciled
record has `pages == "100-102"`, is grouped under section `"W1"`, and its
identifier is `"10.1/w.2020.2020.100"` — the inferred prefix (which already
contains the period token) concatenated with the year and the first page. -/
theorem end_to_end_scenario_amended :
    (merge_article_info none "2020"
        [{ idJEMS := "A1", firstPage := "100", sectionAbbrev := some "W1" },
         { idJEMS := "A2", firstPage := "1", doi := some "10.1/w.2020.5" }]
        [{ id_jems := "A1", num_pages := 3 }]).map (fun a => a.pages)
      = [some "100-102"]
    ∧ (merge_article_info none "2020"
        [{ idJEMS := "A1", firstPage := "100", sectionAbbrev := some "W1" },
         { idJEMS := "A2", firstPage := "1", doi := some "10.1/w.2020.5" }]
        [{ id_jems := "A1", num_pages := 3 }]).map (fun a => a.doi)
      = [some "10.1/w.2020.2020.100"]
    ∧ (partition_by_section
        (merge_article_info none "2020"
          [{ idJEMS := "A1", firstPage := "100", sectionAbbrev := some "W1" },
           { idJEMS := "A2", firstPage := "1", doi := some "10.1/w.2020.5" }]
          [{ id_jems := "A1", num_pages := 3 }])).map (fun g => g.1)
      = ["W1"]
    ∧ groupOf (partition_by_section
        (merge_article_info none "2020"
          [{ idJEMS := "A1", firstPage := "100", sectionAbbrev := some "W1" },
           { idJEMS := "A2", firstPage := "1", doi := some "10.1/w.2020.5" }]
          [{ id_jems := "A1", num_pages := 3 }])) "W1"
      = merge_article_info none "2020"
          [{ idJEMS := "A1", firstPage := "100", sectionAbbrev := some "W1" },
           { idJEMS := "A2", firstPage := "1", doi := some "10.1/w.2020.5" }]
          [{ id_jems := "A1", num_pages := 3 }] := by
  refine ⟨by decide, by decide, by decide, by decide⟩

/-! ## Claim C10: section partitioner -/

theorem groupOf_nil (k : String) : groupOf [] k = [] := rfl

theorem groupOf_cons_pos (g : String × List Article)
    (gs : List (String × List Article)) (k : String) (h : g.1 = k) :
    groupOf (g :: gs) k = g.2 := by
  unfold groupOf
  rw [List.find?_cons_of_pos _ (by simp [h])]

theorem groupOf_cons_neg (g : String × List Article)
    (gs : List (String × List Article)) (k : String) (h : ¬ g.1 = k) :
    groupOf (g :: gs) k = groupOf gs k := by
  unfold groupOf
  rw [List.find?_cons_of_neg _ (by simp [h])]

theorem groupOf_addToGroups (gs : List (String × List Article)) (q k : String)
    (a : Article) :
    groupOf (addToGroups gs q a) k
      = if k = q then groupOf gs k ++ [a] else groupOf gs k := by
  induction gs with
  | nil =>
    by_cases h : k = q
    · rw [if_pos h]
      show groupOf ((q, [a]) :: []) k = groupOf [] k ++ [a]
      rw [groupOf_cons_pos _ _ _ h.symm, groupOf_nil]
      rfl
    · rw [if_neg h]
      show groupOf ((q, [a]) :: []) k = groupOf [] k
      rw [groupOf_cons_neg _ _ _ (fun hc => h hc.symm), groupOf_nil]
  | cons g gs ih =>
    by_cases h1 : g.1 = q
    · have hstep : addToGroups (g :: gs) q a = (g.1, g.2 ++ [a]) :: gs := by
        simp only [addToGroups]
        rw [if_pos h1]
      rw [hstep]
      by_cases h2 : k = q
      · have hgk : g.1 = k := by rw [h1, h2]
        rw [if_pos h2, groupOf_cons_pos (g.1, g.2 ++ [a]) _ _ hgk,
          groupOf_cons_pos _ _ _ hgk]
      · have hgk : ¬ g.1 = k := fun hc => h2 (by rw [← hc, h1])
        rw [if_neg h2, groupOf_cons_neg (g.1, g.2 ++ [a]) _ _ hgk,
          groupOf_cons_neg _ _ _ hgk]
    · have hstep : addToGroups (g :: gs) q a = g :: addToGroups gs q a := by
        simp only [addToGroups]
        rw [if_neg h1]
      rw [hstep]
      by_cases hgk : g.1 = k
      · have h2 : ¬ k = q := fun hc => h1 (by rw [hgk, hc])
        rw [if_neg h2, groupOf_cons_pos _ _ _ hgk, groupOf_cons_pos _ _ _ hgk]
      · rw [groupOf_cons_neg _ _ _ hgk, ih]
        by_cases h2 : k = q
        · rw [if_pos h2, if_pos h2, groupOf_cons_neg _ _ _ hgk]
        · rw [if_neg h2, if_neg h2, groupOf_cons_neg _ _ _ hgk]

theorem groupOf_foldl (l : List Article) :
    ∀ (gs : List (String × List Article)) (k : String),
      groupOf (l.foldl (fun gs a => addToGroups gs (sectionKey a) a) gs) k
        = groupOf gs k ++ l.filter (fun a => sectionKey a == k) := by
  induction l with
  | nil => intro gs k; simp
  | cons a l ih =>
    intro gs k
    simp only [List.foldl_cons, List.filter_cons]
    rw [ih, groupOf_addToGroups]
    by_cases h : k = sectionKey a
    · have hb : (sectionKey a == k) = true := by simp [h.symm]
      rw [if_pos h, hb]
      simp
    · have hb : (sectionKey a == k) = false := by
        simp [beq_eq_false_iff_ne]
        exact fun hc => h hc.symm
      rw [if_neg h, hb]
      simp

/-- C10: the partitioner groups records by section code (with the fixed
`"UNKNOWN"` bucket for an absent code), preserving input order within each
group and neither dropping nor mutating any record: the group of every key
`k` is exactly the input subsequence of records whose section key is `k`.
The spec's concrete example partitions sections `W1, W1, W2` into two groups
of sizes 2 and 1 in input order. -/
theorem partition_by_section_spec :
    (∀ (l : List Article) (k : String),
        groupOf (partition_by_section l) k = l.filter (fun a => sectionKey a == k))
    ∧ partition_by_section
        [{ id_jems := "a1", doi := none, first_page := none, num_pages := none,
           section_abbrev := some "W1", pages := none, extra := [] },
         { id_jems := "a2", doi := none, first_page := none, num_pages := none,
           section_abbrev := some "W1", pages := none, extra := [] },
         { id_jems := "a3", doi := none, first_page := none, num_pages := none,
           section_abbrev := some "W2", pages := none, extra := [] }]
      = [("W1",
          [{ id_jems := "a1", doi := none, first_page := none, num_pages := none,
             section_abbrev := some "W1", pages := none, extra := [] },
           { id_jems := "a2", doi := none, first_page := none, num_pages := none,
             section_abbrev := some "W1", pages := none, extra := [] }]),
         ("W2",
          [{ id_jems := "a3", doi := none, first_page := none, num_pages := none,
             section_abbrev := some "W2", pages := none, extra := [] }])]
    ∧ sectionKey { id_jems := "a4", doi := none, first_page := none,
                   num_pages := none, section_abbrev := none, pages := none,
                   extra := [] }
      = "UNKNOWN" := by
  refine ⟨?_, by decide, by decide⟩
  intro l k
  rw [partition_by_section, groupOf_foldl, groupOf_nil]
  rfl

/-! ## Claim C7: non-overwrite of existing identifiers -/

theorem pyStrip_ne_nil_of (d : String) (h : pyStrip d.data ≠ []) : d ≠ "" := by
  intro hd
  subst hd
  exact h rfl

/-- C7 counterexample: a record with a present, non-blank identifier in
resolver-URL form is modified by the correction step — its identifier is
re-normalized in place. -/
theorem correct_doi_modifies_cex :
    (correct_doi none none "2020"
        { id_jems := "K", doi := some "https://doi.org/10.1/x",
          first_page := some "1", num_pages := none, section_abbrev := none,
          pages := none, extra := [] }).1
      ≠ { id_jems := "K", doi := some "https://doi.org/10.1/x",
          first_page := some "1", num_pages := none, section_abbrev := none,
          pages := none, extra := [] }
    ∧ (correct_doi none none "2020"
        { id_jems := "K", doi := some "https://doi.org/10.1/x",
          first_page := some "1", num_pages := none, section_abbrev := none,
          pages := none, extra := [] }).1.doi
      = some "10.1/x" := by decide

/-- C7 (amended): for a record whose identifier is present and non-blank the
correction step never synthesizes: it only replaces the identifier by its
normalization (no warning), every other field is untouched, and when the
identifier is already a fixed point of normalization the record is left
completely unchanged — even when a prefix is available. -/
theorem correct_doi_nonblank_amended :
    ∀ (cfg inferred : Option String) (year : String) (a : Article) (d : String),
      a.doi = some d → pyStrip d.data ≠ [] →
      ((correct_doi cfg inferred year a).1 = { a with doi := some (normalize_doi d) }
       ∧ (correct_doi cfg inferred year a).2 = false
       ∧ (normalize_doi d = d → (correct_doi cfg inferred year a).1 = a)) := by
  intro cfg inferred year a d hd hstrip
  have hcond : d ≠ "" ∧ pyStrip d.data ≠ [] := ⟨pyStrip_ne_nil_of d hstrip, hstrip⟩
  have hstep : correct_doi cfg inferred year a
      = ({ a with doi := some (normalize_doi d) }, false) := by
    unfold correct_doi
    rw [hd]
    simp only [if_pos hcond]
  refine ⟨by rw [hstep], by rw [hstep], ?_⟩
  intro hfix
  rw [hstep, hfix, ← hd]

/-- C7 witness: the amended statement applied at a record carrying an
already-normalized identifier, with an available prefix. -/
theorem correct_doi_nonblank_amended_witness :
    (correct_doi (some "10.9/p.2020.") none "2020"
        { id_jems := "K", doi := some "10.1/x", first_page := some "1",
          num_pages := none, section_abbrev := none, pages := none,
          extra := [] }).1
      = { id_jems := "K", doi := some "10.1/x", first_page := some "1",
          num_pages := none, section_abbrev := none, pages := none,
          extra := [] } :=
  (correct_doi_nonblank_amended (some "10.9/p.2020.") none "2020"
      { id_jems := "K", doi := some "10.1/x", first_page := some "1",
        num_pages := none, section_abbrev := none, pages := none,
        extra := [] }
      "10.1/x" rfl (by decide)).2.2 (by decide)

/-! ## Claim C8: synthesis precondition and warning -/

theorem correct_doi_blank_synth (cfg inferred : Option String) (year : String)
    (a : Article) (h : doiNonBlank a = false) :
    correct_doi cfg inferred year a = correctDoiSynth cfg inferred year a := by
  unfold doiNonBlank at h
  unfold correct_doi
  split
  · rename_i d hd
    rw [hd] at h
    simp only [Bool.and_eq_false_iff, bne_eq_false_iff_eq, Bool.not_eq_false',
      List.isEmpty_iff] at h
    rw [if_neg]
    intro hc
    rcases h with h | h
    · exact hc.1 h
    · exact hc.2 h
  · rfl

/-- C8 counterexample: when a prefix is available but `first_page` is
missing, no identifier is generated and the record is untouched, but no
warning is emitted either (the flag is `false`) — the warning accompanies
only the missing-prefix case. -/
theorem correct_doi_warning_cex :
    correct_doi (some "10.1/x.2020.") none "2020"
        { id_jems := "K", doi := none, first_page := none, num_pages := none,
          section_abbrev := none, pages := none, extra := [] }
      = ({ id_jems := "K", doi := none, first_page := none, num_pages := none,
           section_abbrev := none, pages := none, extra := [] }, false) := by decide

/-- C8 (amended): for a record without a usable identifier, synthesis
produces one only when both a (configured or inferred) prefix and a truthy
first page are present.  When the prefix is missing the record is unchanged
and the warning is emitted; when only the first page is missing the record
is unchanged and no warning is emitted; in both missing cases the record
keeps no identifier and the run does not fail (the function is total). -/
theorem correct_doi_synth_amended :
    ∀ (cfg inferred : Option String) (year : String) (a : Article),
      doiNonBlank a = false →
      ((prefAvail cfg inferred = false → correct_doi cfg inferred year a = (a, true))
       ∧ (prefAvail cfg inferred = true → fpTruthy a = false →
            correct_doi cfg inferred year a = (a, false))
       ∧ (prefAvail cfg inferred = true → fpTruthy a = true →
            correct_doi cfg inferred year a
              = ({ a with doi := some (cleanPref (strOfOpt (pfxChoice cfg inferred))
                      ++ year ++ "." ++ strOfOpt a.first_page) }, false))) := by
  intro cfg inferred year a hblank
  rw [correct_doi_blank_synth cfg inferred year a hblank]
  refine ⟨?_, ?_, ?_⟩
  · intro hpf
    unfold prefAvail at hpf
    simp only [correctDoiSynth]
    simp [hpf]
  · intro hpf hfp
    unfold prefAvail at hpf
    unfold fpTruthy optTruthy at hfp
    simp only [correctDoiSynth]
    cases hfp2 : a.first_page with
    | none => simp [hpf, hfp2]
    | some fp =>
      rw [hfp2] at hfp
      have he : fp = "" := by simpa using (hfp : (fp != "") = false)
      simp [hpf, hfp2, he]
  · intro hpf hfp
    unfold prefAvail at hpf
    unfold fpTruthy optTruthy at hfp
    simp only [correctDoiSynth]
    cases hfp2 : a.first_page with
    | none => rw [hfp2] at hfp; cases hfp
    | some fp =>
      rw [hfp2] at hfp
      have hne : ¬ fp = "" := by simpa using (hfp : (fp != "") = true)
      simp [hpf, hfp2, hne, strOfOpt]

/-- C8 witness: the amended statement applied at concrete records for the
missing-prefix, missing-page and synthesis cases. -/
theorem correct_doi_synth_amended_witness :
    correct_doi none none "2020"
        { id_jems := "K", doi := none, first_page := some "9", num_pages := none,
          section_abbrev := none, pages := none, extra := [] }
      = ({ id_jems := "K", doi := none, first_page := some "9", num_pages := none,
           section_abbrev := none, pages := none, extra := [] }, true)
    ∧ correct_doi (some "10.1/x.") none "2020"
        { id_jems := "K", doi := none, first_page := some "9", num_pages := none,
          section_abbrev := none, pages := none, extra := [] }
      = ({ id_jems := "K",
           doi := some (cleanPref (strOfOpt (pfxChoice (some "10.1/x.") none))
                    ++ "2020" ++ "." ++ strOfOpt (some ("9" : String))),
           first_page := some "9", num_pages := none,
           section_abbrev := none, pages := none, extra := [] }, false) :=
  ⟨(correct_doi_synth_amended none none "2020"
      { id_jems := "K", doi := none, first_page := some "9", num_pages := none,
        section_abbrev := none, pages := none, extra := [] } (by decide)).1 (by decide),
   (correct_doi_synth_amended (some "10.1/x.") none "2020"
      { id_jems := "K", doi := none, first_page := some "9", num_pages := none,
        section_abbrev := none, pages := none, extra := [] } (by decide)).2.2
      (by decide) (by decide)⟩

/-! ## Claim C2: identifier precedence in the join -/

/-- C2 counterexample: the extracted (PDF) identifier is never copied onto
the merged record.  Here the site record has no identifier and the PDF
record carries `"10.5753/x.y.2019.7"`; the merged record's identifier is the
synthesized `"10.5753/x.y.2019.2019.7"` (via the inferred prefix), not the
normalized PDF identifier. -/
theorem join_doi_precedence_cex :
    (merge_article_info none "2019"
        [{ idJEMS := "K", firstPage := "7" }]
        [{ id_jems := "K", doi := some "10.5753/x.y.2019.7", num_pages := 1 }]).map
      (fun a => a.doi)
      = [some "10.5753/x.y.2019.2019.7"]
    ∧ (merge_article_info none "2019"
        [{ idJEMS := "K", firstPage := "7" }]
        [{ id_jems := "K", doi := some "10.5753/x.y.2019.7", num_pages := 1 }]).map
      (fun a => a.doi)
      ≠ [some (normalize_doi "10.5753/x.y.2019.7")] := by
  refine ⟨by decide, by decide⟩

/-- C2 (amended): for every matching pair, a non-blank site identifier whose
normalization is non-blank takes precedence: the merged record carries the
(twice-)normalized site identifier.  The extracted record's identifier is
never placed on the merged record — the merge result does not depend on it
at all (it only feeds prefix inference); without a usable site identifier
the merged identifier can only come from synthesis. -/
theorem join_doi_precedence_amended :
    ∀ (cfg inferred : Option String) (year : String) (w : SiteRecord)
      (p : PdfArticle),
      (∀ d : String, w.doi = some d → d ≠ "" →
        pyStrip (normalize_doi d).data ≠ [] →
        (mergeOne cfg inferred year w p).doi
          = some (normalize_doi (normalize_doi d)))
      ∧ (∀ o : Option String,
          mergeOne cfg inferred year w p
            = mergeOne cfg inferred year w { p with doi := o }) := by
  intro cfg inferred year w p
  constructor
  · intro d hd hne hstrip
    have htr : optTruthy (fromSite w).doi = true := by
      simp [fromSite, hd, optTruthy, hne]
    have hso : strOfOpt (fromSite w).doi = d := by
      simp [fromSite, hd, strOfOpt]
    simp only [mergeOne, htr, if_true, hso]
    have := correct_doi_nonblank_amended cfg inferred year
      { id_jems := w.idJEMS, doi := some (normalize_doi d),
        first_page := some w.firstPage, num_pages := none,
        section_abbrev := w.sectionAbbrev,
        pages := some (update_pages w.firstPage p.num_pages), extra := p.extra }
      (normalize_doi d) rfl hstrip
    simp only [fromSite]
    rw [this.1]
  · intro o
    rfl

/-- C2 witness: the amended statement applied to a concrete matching pair
with a URL-form site identifier and a PDF identifier that is ignored. -/
theorem join_doi_precedence_amended_witness :
    (mergeOne none none "2020"
        { idJEMS := "K", firstPage := "1", doi := some "https://doi.org/10.1/a" }
        { id_jems := "K", doi := some "10.9/zzz", num_pages := 1 }).doi
      = some (normalize_doi (normalize_doi "https://doi.org/10.1/a"))
    ∧ mergeOne none none "2020"
        { idJEMS := "K", firstPage := "1", doi := some "https://doi.org/10.1/a" }
        { id_jems := "K", doi := some "10.9/zzz", num_pages := 1 }
      = mergeOne none none "2020"
        { idJEMS := "K", firstPage := "1", doi := some "https://doi.org/10.1/a" }
        { id_jems := "K", doi := none, num_pages := 1 } :=
  ⟨(join_doi_precedence_amended none none "2020"
      { idJEMS := "K", firstPage := "1", doi := some "https://doi.org/10.1/a" }
      { id_jems := "K", doi := some "10.9/zzz", num_pages := 1 }).1
      "https://doi.org/10.1/a" rfl (by decide) (by decide),
   (join_doi_precedence_amended none none "2020"
      { idJEMS := "K", firstPage := "1", doi := some "https://doi.org/10.1/a" }
      { id_jems := "K", doi := some "10.9/zzz", num_pages := 1 }).2 none⟩

/-! ## Claim C4: inner-join semantics -/

theorem correct_doi_only_doi (cfg inferred : Option String) (year : String)
    (a : Article) :
    ∃ o : Option String, (correct_doi cfg inferred year a).1 = { a with doi := o } := by
  unfold correct_doi correctDoiSynth
  repeat' split
  all_goals exact ⟨_, rfl⟩

theorem correct_doi_fst_id (cfg inferred : Option String) (year : String)
    (a : Article) : (correct_doi cfg inferred year a).1.id_jems = a.id_jems := by
  obtain ⟨o, ho⟩ := correct_doi_only_doi cfg inferred year a
  rw [ho]

theorem mergeOne_id_jems (cfg inferred : Option String) (year : String)
    (w : SiteRecord) (p : PdfArticle) :
    (mergeOne cfg inferred year w p).id_jems = w.idJEMS := by
  simp only [mergeOne]
  rw [correct_doi_fst_id]
  split <;> rfl

theorem pdfLookup_isSome (pdfs : List PdfArticle) (k : String) :
    (pdfLookup pdfs k).isSome = pdfs.any (fun p => p.id_jems == k) := by
  unfold pdfLookup
  cases hf : pdfs.filter (fun p => p.id_jems == k) with
  | nil =>
    have h1 : ∀ p, p ∈ pdfs → ¬ (p.id_jems == k) = true := by
      intro p hp
      exact (List.filter_eq_nil_iff.mp hf) p hp
    have h2 : pdfs.any (fun p => p.id_jems == k) = false := by
      rw [← Bool.not_eq_true, List.any_eq_true]
      rintro ⟨x, hx, hpx⟩
      exact h1 x hx hpx
    rw [h2]
    rfl
  | cons q qs =>
    have h1 : q ∈ pdfs.filter (fun p => p.id_jems == k) := by rw [hf]; exact List.mem_cons_self q qs
    have h2 : pdfs.any (fun p => p.id_jems == k) = true := by
      rw [List.any_eq_true]
      rcases List.mem_filter.mp h1 with ⟨hq, hqk⟩
      exact ⟨q, hq, hqk⟩
    rw [h2]
    cases hl : (q :: qs).getLast? with
    | none => simp at hl
    | some x => rfl

theorem mergeLoop_ids (cfg inferred : Option String) (year : String)
    (site : List SiteRecord) (pdfs : List PdfArticle) :
    (mergeLoop cfg inferred year site pdfs).map (fun a => a.id_jems)
      = (site.filter (fun w => pdfs.any (fun p => p.id_jems == w.idJEMS))).map
          (fun w => w.idJEMS) := by
  induction site with
  | nil => rfl
  | cons w ws ih =>
    simp only [mergeLoop] at ih ⊢
    cases hl : pdfLookup pdfs w.idJEMS with
    | none =>
      have hany : pdfs.any (fun p => p.id_jems == w.idJEMS) = false := by
        rw [← pdfLookup_isSome, hl]
        rfl
      simp only [List.filterMap_cons, List.filter_cons, hl, Option.map_none', hany,
        Bool.false_eq_true, if_false]
      exact ih
    | some p =>
      have hany : pdfs.any (fun p => p.id_jems == w.idJEMS) = true := by
        rw [← pdfLookup_isSome, hl]
        rfl
      simp only [List.filterMap_cons, List.filter_cons, hl, Option.map_some', hany,
        if_true, List.map_cons]
      rw [mergeOne_id_jems, ih]

/-- C4: inner-join semantics — the merge yields, in site-record order,
exactly one merged record per site record whose key occurs among the
extracted records (keyed through a last-write-wins index), nothing for
unmatched site records and nothing for unmatched extracted records.  The
first conjunct gives the general order/coverage law; the second is the
spec's `{k1,k2} x {k2,k3}` example; the third shows last-write-wins on a
duplicate extracted key (the later record's page count is used). -/
theorem join_inner_semantics :
    (∀ (cfg : Option String) (year : String) (site : List SiteRecord)
        (pdfs : List PdfArticle),
        (merge_article_info cfg year site pdfs).map (fun a => a.id_jems)
          = (site.filter (fun w => pdfs.any (fun p => p.id_jems == w.idJEMS))).map
              (fun w => w.idJEMS))
    ∧ (merge_article_info none "2020"
          [{ idJEMS := "k1", firstPage := "1" }, { idJEMS := "k2", firstPage := "5" }]
          [{ id_jems := "k2", num_pages := 2 }, { id_jems := "k3", num_pages := 4 }]).map
        (fun a => a.id_jems)
      = ["k2"]
    ∧ (merge_article_info none "2020"
          [{ idJEMS := "k", firstPage := "5" }]
          [{ id_jems := "k", num_pages := 1 }, { id_jems := "k", num_pages := 3 }]).map
        (fun a => a.pages)
      = [some "5-7"] := by
  refine ⟨?_, by decide, by decide⟩
  intro cfg year site pdfs
  exact mergeLoop_ids cfg (mergeInferred cfg site pdfs) year site pdfs

/-! ## Claim C6: prefix inference -/

theorem argmax_foldl_spec (f : String → Nat) (ks : List String) :
    ∀ b : String,
      (ks.foldl (fun b q => if f b < f q then q else b) b = b
        ∨ ks.foldl (fun b q => if f b < f q then q else b) b ∈ ks)
      ∧ f b ≤ f (ks.foldl (fun b q => if f b < f q then q else b) b)
      ∧ ∀ x ∈ ks, f x ≤ f (ks.foldl (fun b q => if f b < f q then q else b) b) := by
  induction ks with
  | nil => intro b; exact ⟨Or.inl rfl, Nat.le_refl _, by intro x hx; cases hx⟩
  | cons q ks ih =>
    intro b
    simp only [List.foldl_cons]
    by_cases hstep : f b < f q
    · rw [if_pos hstep]
      obtain ⟨hmem, hle, hall⟩ := ih q
      refine ⟨?_, ?_, ?_⟩
      · rcases hmem with h | h
        · exact Or.inr (by rw [h]; exact List.mem_cons_self q ks)
        · exact Or.inr (List.mem_cons_of_mem q h)
      · exact Nat.le_trans (Nat.le_of_lt hstep) hle
      · intro x hx
        rcases List.mem_cons.mp hx with h | h
        · exact h ▸ hle
        · exact hall x h
    · rw [if_neg hstep]
      obtain ⟨hmem, hle, hall⟩ := ih b
      refine ⟨?_, hle, ?_⟩
      · rcases hmem with h | h
        · exact Or.inl h
        · exact Or.inr (List.mem_cons_of_mem q h)
      · intro x hx
        rcases List.mem_cons.mp hx with h | h
        · subst h
          exact Nat.le_trans (Nat.le_of_not_lt hstep) hle
        · exact hall x h

theorem firstKeys_mem (x : String) : ∀ l : List String, x ∈ firstKeys l ↔ x ∈ l := by
  intro l
  induction l with
  | nil => simp [firstKeys]
  | cons s rest ih =>
    simp only [firstKeys, List.mem_cons, List.mem_filter]
    constructor
    · rintro (h | ⟨h, _⟩)
      · exact Or.inl h
      · exact Or.inr (ih.mp h)
    · rintro (h | h)
      · exact Or.inl h
      · by_cases hx : x = s
        · exact Or.inl hx
        · exact Or.inr ⟨ih.mpr h, by simp [hx]⟩

theorem mostCommonFirst_spec (pats : List String) (p : String)
    (h : mostCommonFirst pats = some p) :
    p ∈ pats ∧ ∀ q : String, pats.count q ≤ pats.count p := by
  unfold mostCommonFirst argmaxCount at h
  cases hk : firstKeys pats with
  | nil => rw [hk] at h; cases h
  | cons k ks =>
    rw [hk] at h
    have hp : p = ks.foldl
        (fun b q => if pats.count b < pats.count q then q else b) k := by
      cases h
      rfl
    obtain ⟨hmem, hle, hall⟩ := argmax_foldl_spec (fun s => pats.count s) ks k
    have hpmemk : p ∈ k :: ks := by
      rw [hp]
      rcases hmem with h1 | h1
      · rw [h1]
        exact List.mem_cons_self k ks
      · exact List.mem_cons_of_mem k h1
    constructor
    · exact (firstKeys_mem p pats).mp (hk ▸ hpmemk)
    · intro q
      by_cases hq : q ∈ pats
      · have hqk : q ∈ k :: ks := hk ▸ (firstKeys_mem q pats).mpr hq
        rcases List.mem_cons.mp hqk with h1 | h1
        · subst h1
          exact hp ▸ hle
        · exact hp ▸ hall q h1
      · rw [List.count_eq_zero.mpr hq]
        exact Nat.zero_le _

/-- C6: prefix inference normalizes each identifier, matches the pattern
`10.<digits>/<family>.<period>.` recording the matched prefix with its
trailing separator, and returns a pattern of maximal occurrence count; it
returns nothing on an empty input or when no identifier matches; on the
spec's example it returns `"10.5753/a.b.2019."`. -/
theorem infer_pref_spec :
    infer_doi_pref [] = none
    ∧ (∀ dois : List String, doi_pref_patterns dois = [] → infer_doi_pref dois = none)
    ∧ (∀ (dois : List String) (p : String), infer_doi_pref dois = some p →
        p ∈ doi_pref_patterns dois
        ∧ ∀ q : String,
            (doi_pref_patterns dois).count q ≤ (doi_pref_patterns dois).count p)
    ∧ infer_doi_pref ["10.5753/a.b.2019.1", "10.5753/a.b.2019.2", "10.5753/c.d.2019.9"]
        = some "10.5753/a.b.2019." := by
  refine ⟨by decide, ?_, ?_, by decide⟩
  · intro dois hpat
    unfold infer_doi_pref
    split
    · rfl
    · split
      · rfl
      · rw [hpat]
        rfl
  · intro dois p h
    unfold infer_doi_pref at h
    split at h
    · cases h
    · split at h
      · cases h
      · split at h
        · cases h
        · exact mostCommonFirst_spec (doi_pref_patterns dois) p h

/-- C6 witness: the inference contract applied at concrete inputs — a
non-matching identifier list yields nothing, and on the spec's example the
returned pattern's count dominates the rival pattern's count. -/
theorem infer_pref_spec_witness :
    infer_doi_pref ["junk"] = none
    ∧ (doi_pref_patterns
          ["10.5753/a.b.2019.1", "10.5753/a.b.2019.2", "10.5753/c.d.2019.9"]).count
        "10.5753/c.d.2019."
      ≤ (doi_pref_patterns
          ["10.5753/a.b.2019.1", "10.5753/a.b.2019.2", "10.5753/c.d.2019.9"]).count
        "10.5753/a.b.2019." :=
  ⟨infer_pref_spec.2.1 ["junk"] (by decide),
   (infer_pref_spec.2.2.1
      ["10.5753/a.b.2019.1", "10.5753/a.b.2019.2", "10.5753/c.d.2019.9"]
      "10.5753/a.b.2019." (by decide)).2 "10.5753/c.d.2019."⟩

/-! ## Claim C9: reconciled identifiers are in bare form -/

theorem schemeFree_of_head_one (s : String) (X : List Char)
    (h : s.data = '1' :: X) : schemeFree s = true := by
  unfold schemeFree
  rw [h]
  rfl

theorem schemeFree_empty : schemeFree "" = true := by decide

theorem pyStrip_of_ends (a b : Char) (l : List Char) (ha : isPyWs a = false)
    (hb : isPyWs b = false) : pyStrip (a :: (l ++ [b])) = a :: (l ++ [b]) := by
  unfold pyStrip
  rw [List.dropWhile_cons_of_neg (by simp [ha])]
  have h1 : (a :: (l ++ [b])).reverse = b :: (l.reverse ++ [a]) := by
    simp
  rw [h1, List.dropWhile_cons_of_neg (by simp [hb]), ← h1, List.reverse_reverse]

theorem rstripSlash_of_last (l : List Char) (b : Char) (hb : (b == '/') = false) :
    rstripSlash (l ++ [b]) = l ++ [b] := by
  unfold rstripSlash
  rw [List.reverse_append]
  simp only [List.reverse_cons, List.reverse_nil, List.nil_append, List.singleton_append]
  rw [List.dropWhile_cons_of_neg (by simp [hb])]
  simp

theorem stripDoiUrl_one (X : List Char) : stripDoiUrl ('1' :: X) = '1' :: X := rfl

theorem big_shape (A B C : List Char) :
    ∃ mid : List Char,
      '1' :: '0' :: '.' :: A ++ '/' :: B ++ '.' :: C ++ ['.']
        = '1' :: (mid ++ ['.']) :=
  ⟨'0' :: '.' :: A ++ '/' :: B ++ '.' :: C, by simp⟩

theorem matchPref_shape (l r : List Char) (h : matchPref l = some r) :
    ∃ mid : List Char, r = '1' :: (mid ++ ['.']) := by
  unfold matchPref at h
  split at h
  · split at h
    · cases h
    · split at h
      · split at h
        · cases h
          exact big_shape _ _ _
        · cases h
      · cases h
  · cases h

theorem string_mk_mem_shape (pats : List String) (p : String)
    (hp : p ∈ pats)
    (hpats : ∀ q ∈ pats, ∃ mid : List Char, q.data = '1' :: (mid ++ ['.'])) :
    ∃ mid : List Char, p.data = '1' :: (mid ++ ['.']) := hpats p hp

theorem doi_pref_patterns_shape (dois : List String) (p : String)
    (hp : p ∈ doi_pref_patterns dois) :
    ∃ mid : List Char, p.data = '1' :: (mid ++ ['.']) := by
  unfold doi_pref_patterns at hp
  rw [List.mem_filterMap] at hp
  obtain ⟨d, _, hd⟩ := hp
  cases hm : matchPref d.data with
  | none => rw [hm] at hd; cases hd
  | some r =>
    rw [hm] at hd
    simp only [Option.map_some'] at hd
    obtain ⟨mid, hmid⟩ := matchPref_shape d.data r hm
    cases hd
    exact ⟨mid, hmid⟩

theorem infer_pref_shape (dois : List String) (p : String)
    (h : infer_doi_pref dois = some p) :
    ∃ mid : List Char, p.data = '1' :: (mid ++ ['.']) := by
  unfold infer_doi_pref at h
  split at h
  · cases h
  · split at h
    · cases h
    · split at h
      · cases h
      · exact doi_pref_patterns_shape dois p
          (mostCommonFirst_spec (doi_pref_patterns dois) p h).1

theorem cleanPref_fix (p : String) (mid : List Char)
    (h : p.data = '1' :: (mid ++ ['.'])) : cleanPref p = p := by
  have hne : p ≠ "" := by
    intro hc
    subst hc
    cases h
  have hps : pyStrip p.data = p.data := by
    rw [h]
    exact pyStrip_of_ends '1' '.' mid rfl rfl
  have hsd : stripDoiUrl p.data = p.data := by
    rw [h]
    exact stripDoiUrl_one _
  have hnorm : normalize_doi p = p := by
    unfold normalize_doi
    rw [if_neg hne, hps, hsd]
  have hrs : rstripSlash p.data = p.data := by
    rw [h, ← List.cons_append]
    exact rstripSlash_of_last ('1' :: mid) '.' rfl
  unfold cleanPref
  rw [hnorm, if_neg hne, hrs]

theorem dropWhile_head_false (l : List Char) (c : Char) (t : List Char)
    (h : l.dropWhile isPyWs = c :: t) : isPyWs c = false := by
  induction l with
  | nil => cases h
  | cons a l ih =>
    by_cases ha : isPyWs a = true
    · rw [List.dropWhile_cons_of_pos ha] at h
      exact ih h
    · rw [List.dropWhile_cons_of_neg (by simpa using ha)] at h
      cases h
      simpa using ha

theorem pyStrip_nil_dropWhile (l : List Char) (h : pyStrip l = []) :
    l.dropWhile isPyWs = [] := by
  unfold pyStrip at h
  rw [List.reverse_eq_nil_iff] at h
  cases hl : l.dropWhile isPyWs with
  | nil => rfl
  | cons c t =>
    exfalso
    have hc : isPyWs c = false := dropWhile_head_false l c t hl
    rw [hl] at h
    have hcmem : c ∈ (c :: t : List Char).reverse := by simp
    have := (List.dropWhile_eq_nil_iff.mp h) c hcmem
    rw [hc] at this
    cases this

theorem all_ws_schemeFree (l : List Char) (h : l.dropWhile isPyWs = []) :
    schemeFree ⟨l⟩ = true := by
  have hall : ∀ x ∈ l, isPyWs x = true := List.dropWhile_eq_nil_iff.mp h
  unfold schemeFree
  cases hl : l with
  | nil => rfl
  | cons c t =>
    have hc : isPyWs c = true := hall c (by rw [hl]; simp)
    have hch : ¬ c = 'h' := by
      intro hc2
      subst hc2
      cases hc
    show (!("http://".data.isPrefixOf (String.mk (c :: t)).data
        || "https://".data.isPrefixOf (String.mk (c :: t)).data)) = true
    have h1 : "http://".data.isPrefixOf (String.mk (c :: t)).data = false := by
      show ('h' :: "ttp://".data).isPrefixOf (c :: t) = false
      simp only [List.isPrefixOf]
      rw [show ('h' == c) = false by simpa using fun hcc => hch hcc.symm]
      rfl
    have h2 : "https://".data.isPrefixOf (String.mk (c :: t)).data = false := by
      show ('h' :: "ttps://".data).isPrefixOf (c :: t) = false
      simp only [List.isPrefixOf]
      rw [show ('h' == c) = false by simpa using fun hcc => hch hcc.symm]
      rfl
    rw [h1, h2]
    rfl

theorem optTruthy_some (o : Option String) (h : optTruthy o = true) :
    o = some (strOfOpt o) ∧ strOfOpt o ≠ "" := by
  cases o with
  | none => cases h
  | some s =>
    refine ⟨rfl, ?_⟩
    simpa [optTruthy] using h

theorem correct_doi_doi_cases (cfg inferred : Option String) (year : String)
    (a : Article) :
    ((correct_doi cfg inferred year a).1.doi = a.doi
        ∧ ∀ d : String, a.doi = some d → d = "" ∨ pyStrip d.data = [])
    ∨ (∃ d : String, a.doi = some d
        ∧ (correct_doi cfg inferred year a).1.doi = some (normalize_doi d))
    ∨ (∃ fp : String, optTruthy (pfxChoice cfg inferred) = true
        ∧ a.first_page = some fp
        ∧ (correct_doi cfg inferred year a).1.doi
            = some (cleanPref (strOfOpt (pfxChoice cfg inferred))
                ++ year ++ "." ++ fp)) := by
  have hblank : ∀ d : String, a.doi = some d →
      ¬ (d ≠ "" ∧ pyStrip d.data ≠ []) → d = "" ∨ pyStrip d.data = [] := by
    intro d _ hc
    by_cases h0 : d = ""
    · exact Or.inl h0
    · right
      by_contra hs
      exact hc ⟨h0, hs⟩
  unfold correct_doi correctDoiSynth
  split
  · rename_i d hd
    split
    · rename_i hc
      exact Or.inr (Or.inl ⟨d, hd, rfl⟩)
    · rename_i hc
      split
      · rename_i hpfx
        split
        · rename_i fp hfp
          split
          · rename_i hfpne
            exact Or.inr (Or.inr ⟨fp, hpfx, hfp, rfl⟩)
          · exact Or.inl ⟨rfl, fun d0 hd0 => by
              rw [hd] at hd0
              cases hd0
              exact hblank d hd hc⟩
        · exact Or.inl ⟨rfl, fun d0 hd0 => by
            rw [hd] at hd0
            cases hd0
            exact hblank d hd hc⟩
      · exact Or.inl ⟨rfl, fun d0 hd0 => by
          rw [hd] at hd0
          cases hd0
          exact hblank d hd hc⟩
  · rename_i hd
    have hvac : ∀ d0 : String, a.doi = some d0 → d0 = "" ∨ pyStrip d0.data = [] := by
      intro d0 hd0
      rw [hd] at hd0
      cases hd0
    split
    · rename_i hpfx
      split
      · rename_i fp hfp
        split
        · rename_i hfpne
          exact Or.inr (Or.inr ⟨fp, hpfx, hfp, rfl⟩)
        · exact Or.inl ⟨rfl, hvac⟩
      · exact Or.inl ⟨rfl, hvac⟩
    · exact Or.inl ⟨rfl, hvac⟩

theorem mergeOne_eq (cfg inferred : Option String) (year : String)
    (w : SiteRecord) (p : PdfArticle) :
    mergeOne cfg inferred year w p
      = (correct_doi cfg inferred year
          { id_jems := w.idJEMS,
            doi := if optTruthy w.doi then some (normalize_doi (strOfOpt w.doi))
                   else w.doi,
            first_page := some w.firstPage,
            num_pages := none,
            section_abbrev := w.sectionAbbrev,
            pages := some (update_pages w.firstPage p.num_pages),
            extra := p.extra }).1 := by
  simp only [mergeOne, fromSite]
  by_cases h : optTruthy w.doi = true
  · simp [h]
  · simp only [Bool.not_eq_true] at h
    simp [h]

/-- C9 counterexample: a site identifier with three stacked resolver layers
leaves the reconciliation with a scheme-carrying (URL) identifier — only two
normalization passes are applied on the way through. -/
theorem reconciled_doi_bare_cex :
    (merge_article_info none "2020"
        [{ idJEMS := "C", firstPage := "3",
           doi := some "https://doi.org/https://doi.org/https://doi.org/10.1/x" }]
        [{ id_jems := "C", num_pages := 1 }]).map (fun a => a.doi)
      = [some "https://doi.org/10.1/x"]
    ∧ schemeFree "https://doi.org/10.1/x" = false := by
  refine ⟨by decide, by decide⟩

/-- C9 (amended): in a run without a configured prefix, every reconciled
record's identifier is scheme-free (bare, never an `http(s)://` URL),
provided each site identifier sheds all resolver layers within the two
normalization passes the pipeline applies (site identifiers carrying at
most two stacked resolver-URL layers).  Synthesized identifiers are always
bare because an inferred prefix matches the pattern `10.<digits>/...` and
therefore starts with `"10."`. -/
theorem reconciled_doi_bare_amended :
    ∀ (year : String) (site : List SiteRecord) (pdfs : List PdfArticle),
      (∀ w ∈ site, ∀ ds : String, w.doi = some ds →
          schemeFree (normalize_doi (normalize_doi ds)) = true) →
      ∀ a ∈ merge_article_info none year site pdfs,
        ∀ d : String, a.doi = some d → schemeFree d = true := by
  intro year site pdfs hsite a ha d hd
  unfold merge_article_info mergeLoop at ha
  rw [List.mem_filterMap] at ha
  obtain ⟨w, hw, hmap⟩ := ha
  cases hl : pdfLookup pdfs w.idJEMS with
  | none => rw [hl] at hmap; cases hmap
  | some p =>
    rw [hl] at hmap
    simp only [Option.map_some'] at hmap
    have hae : mergeOne none (mergeInferred none site pdfs) year w p = a := by
      cases hmap
      rfl
    rw [← hae, mergeOne_eq] at hd
    rcases correct_doi_doi_cases none (mergeInferred none site pdfs) year
        { id_jems := w.idJEMS,
          doi := if optTruthy w.doi then some (normalize_doi (strOfOpt w.doi))
                 else w.doi,
          first_page := some w.firstPage,
          num_pages := none,
          section_abbrev := w.sectionAbbrev,
          pages := some (update_pages w.firstPage p.num_pages),
          extra := p.extra } with
      ⟨hunch, hblank⟩ | ⟨d0, hd0, hres⟩ | ⟨fp, hpfx, hfp, hres⟩
    · rw [hunch] at hd
      rcases hblank d hd with hdb | hdb
      · subst hdb
        exact schemeFree_empty
      · exact all_ws_schemeFree d.data (pyStrip_nil_dropWhile d.data hdb)
    · rw [hres] at hd
      cases hd
      have hd0e : (if optTruthy w.doi = true
          then some (normalize_doi (strOfOpt w.doi)) else w.doi) = some d0 := hd0
      by_cases hw0 : optTruthy w.doi = true
      · rw [if_pos hw0] at hd0e
        obtain ⟨hw1, _⟩ := optTruthy_some w.doi hw0
        have hds : d0 = normalize_doi (strOfOpt w.doi) := by
          cases hd0e
          rfl
        rw [hds]
        exact hsite w hw (strOfOpt w.doi) hw1
      · rw [if_neg hw0] at hd0e
        have hfalse : optTruthy w.doi = false := by
          simpa using hw0
        rw [hd0e] at hfalse
        have hd00 : d0 = "" := by
          simpa [optTruthy] using hfalse
        rw [hd00]
        decide
    · rw [hres] at hd
      cases hd
      have hpc : pfxChoice none (mergeInferred none site pdfs)
          = mergeInferred none site pdfs := rfl
      rw [hpc] at hpfx
      rw [hpc]
      obtain ⟨hi1, _⟩ := optTruthy_some (mergeInferred none site pdfs) hpfx
      have hcases : mergeInferred none site pdfs = none
          ∨ mergeInferred none site pdfs
              = infer_doi_pref (extractedDois site pdfs) := by
        unfold mergeInferred
        split
        · exact Or.inr rfl
        · exact Or.inl rfl
      rcases hcases with hmi | hmi
      · rw [hmi] at hpfx
        cases hpfx
      · have hinf : infer_doi_pref (extractedDois site pdfs)
            = some (strOfOpt (mergeInferred none site pdfs)) := by
          rw [← hmi]
          exact hi1
        obtain ⟨mid, hmid⟩ := infer_pref_shape _ _ hinf
        rw [cleanPref_fix _ mid hmid]
        have hdot : ("." : String).data = ['.'] := rfl
        have hdata : (strOfOpt (mergeInferred none site pdfs) ++ year ++ "." ++ fp).data
            = '1' :: ((mid ++ ['.']) ++ (year.data ++ '.' :: fp.data)) := by
          rw [String.data_append, String.data_append, String.data_append, hmid, hdot]
          simp [List.append_assoc]
        exact schemeFree_of_head_one _ _ hdata

/-- C9 witness: the amended bareness invariant applied to a concrete run
whose site identifier carries a single resolver layer. -/
theorem reconciled_doi_bare_amended_witness : schemeFree "10.1/b" = true :=
  reconciled_doi_bare_amended "2020"
    [{ idJEMS := "B", firstPage := "2", doi := some "https://doi.org/10.1/b" }]
    [{ id_jems := "B", num_pages := 1 }]
    (by
      intro w hw ds hds
      have hw2 : w = { idJEMS := "B", firstPage := "2",
                       doi := some "https://doi.org/10.1/b" } :=
        List.mem_singleton.mp hw
      subst hw2
      cases hds
      decide)
    { id_jems := "B", doi := some "10.1/b", first_page := some "2",
      num_pages := none, section_abbrev := none, pages := some "2", extra := [] }
    (by decide) "10.1/b" (by decide)
